import Mathlib

/-!
Verification development for `spades_runner.py` (HybPiper).

The script orchestrates SPAdes assembly runs over a list of gene
directories: an initial parallel pass (`spades_initial`), a single redo
pass that drops the largest attempted k-mer (`rerun_spades`), and a
top-level driver (`main`).  We give a shallow embedding: the filesystem
and the exit codes of the external `parallel` invocations are explicit
inputs, file writes and copies are recorded as data in the results, and
Python exceptions (`ValueError` from `int`, `FileNotFoundError` from
`os.stat`) are modelled with `Except`.
-/

/-- Model of the parts of the OS world the script consults:
`files` is the set of paths for which `os.path.isfile` is true,
`size` gives `os.stat(p).st_size` for paths in `files`,
`listdir` gives `os.listdir` of a directory (entry names), and
`lines` gives the lines obtained by iterating an opened text file. -/
structure FS where
  files : List String
  size : String → Int
  listdir : String → List String
  lines : String → List String

/-- Embeds `os.path.isfile`. -/
def FS.isfile (fs : FS) (p : String) : Bool :=
  fs.files.contains p

/-- Python exceptions that the script can raise and does not catch. -/
inductive PyErr where
  | valueError
  | fileNotFoundError (path : String)
deriving DecidableEq

/-- Characters stripped by Python `str.rstrip()` with no argument. -/
def isPySpace (c : Char) : Bool :=
  c = ' ' || c = '\t' || c = '\n' || c = '\r' || c = '\x0b' || c = '\x0c'

/-- Embeds Python `s.rstrip()`: drop trailing whitespace. -/
def pyRstrip (s : String) : String :=
  ⟨(s.data.reverse.dropWhile isPySpace).reverse⟩

/-- Value of a decimal digit string, accumulator style; `none` when a
non-digit character occurs. -/
def digitsVal : List Char → Nat → Option Nat
  | [], acc => some acc
  | c :: cs, acc =>
    if c.isDigit then digitsVal cs (10 * acc + (c.toNat - 48)) else none

/-- Embeds Python `int(s)` on strings: optional surrounding whitespace,
optional sign, then a nonempty run of decimal digits; anything else
raises `ValueError` (modelled as `none`). -/
def pyInt (s : String) : Option Int :=
  match ((s.data.dropWhile isPySpace).reverse.dropWhile isPySpace).reverse with
  | [] => none
  | '-' :: rest =>
    match rest with
    | [] => none
    | _ => (digitsVal rest 0).map (fun n => -(n : Int))
  | '+' :: rest =>
    match rest with
    | [] => none
    | _ => (digitsVal rest 0).map (fun n => (n : Int))
  | rest => (digitsVal rest 0).map (fun n => (n : Int))

/-- Path `"{}/{}_spades/contigs.fasta".format(gene,gene)`. -/
def contigsPath (gene : String) : String :=
  gene ++ "/" ++ gene ++ "_spades/contigs.fasta"

/-- Path `"{}/{}_contigs.fasta".format(gene,gene)`: the flattened copy
destination. -/
def flatContigsPath (gene : String) : String :=
  gene ++ "/" ++ gene ++ "_contigs.fasta"

/-- Path `os.path.join(gene, "{}_spades".format(gene))` (modelled as
concatenation with a slash, exact whenever the right operand is a
relative path, which it always is here). -/
def spadesDir (gene : String) : String :=
  gene ++ "/" ++ gene ++ "_spades"

/-- The string literal `"{}/{}_spades/contigs.fasta"` exactly as it
appears, unformatted, in the `os.stat` call of `rerun_spades`
(the braces are written with escapes). -/
def literalContigsTemplate : String :=
  "\x7b\x7d/\x7b\x7d_spades/contigs.fasta"

/-- Joined k-values as used by `make_spades_cmd`: Python first replaces a
truthy `kvals` list by `",".join(kvals)` and later tests truthiness
again; `None`, `[]` and a join that comes out empty are all falsy, so
the `-k` flag is emitted exactly when the joined string is nonempty. -/
def kvalsJoined (kvals : Option (List String)) : Option String :=
  match kvals with
  | none => none
  | some ks =>
    let j := String.intercalate "," ks
    if j = "" then none else some j

/-- Truthiness of the `cpu` argument (`None` and `0` are falsy). -/
def cpuVal (cpu : Option Int) : Option Int :=
  match cpu with
  | none => none
  | some n => if n = 0 then none else some n

/-- Embeds `make_spades_cmd`: builds the shell command for the initial
parallel SPAdes run (four format templates, chosen by truthiness of
`cpu` and of the joined `kvals`). -/
def make_spades_cmd (genelist : String) (cov_cutoff : Int) (cpu : Option Int)
    (paired : Bool) (kvals : Option (List String)) : String :=
  let fileflag := if paired then "--12" else "-s"
  match cpuVal cpu, kvalsJoined kvals with
  | some n, some k =>
    "time parallel -j " ++ toString n ++
    " --eta spades.py --only-assembler -k " ++ k ++
    " --threads 1 --cov-cutoff " ++ toString cov_cutoff ++ " " ++ fileflag ++
    " \x7b\x7d/\x7b\x7d_interleaved.fasta -o \x7b\x7d/\x7b\x7d_spades :::: " ++
    genelist ++ " > spades.log"
  | some n, none =>
    "time parallel -j " ++ toString n ++
    " --eta spades.py --only-assembler --threads 1 --cov-cutoff " ++
    toString cov_cutoff ++ " " ++ fileflag ++
    " \x7b\x7d/\x7b\x7d_interleaved.fasta -o \x7b\x7d/\x7b\x7d_spades :::: " ++
    genelist ++ " > spades.log"
  | none, some k =>
    "time parallel --eta spades.py --only-assembler -k " ++ k ++
    " --threads 1 --cov-cutoff " ++ toString cov_cutoff ++ " " ++ fileflag ++
    " \x7b\x7d/\x7b\x7d_interleaved.fasta -o \x7b\x7d/\x7b\x7d_spades :::: " ++
    genelist ++ " > spades.log"
  | none, none =>
    "time parallel --eta spades.py --only-assembler --threads 1 --cov-cutoff " ++
    toString cov_cutoff ++ " " ++ fileflag ++
    " \x7b\x7d/\x7b\x7d_interleaved.fasta -o \x7b\x7d/\x7b\x7d_spades :::: " ++
    genelist ++ " > spades.log"

/-- Result of the per-gene classification loop of `spades_initial`:
recorded copies (source, destination), the `spades_successful` and
`spades_failed` lists, and the per-gene stderr lines. -/
structure ClassInit where
  copies : List (String × String)
  successful : List String
  failed : List String
  errLines : List String
deriving DecidableEq

/-- The classification loop of `spades_initial`: a gene is successful
iff `<gene>/<gene>_spades/contigs.fasta` exists, in which case it is
copied to `<gene>/<gene>_contigs.fasta`; otherwise the gene name is
written to stderr and appended to the failed list. -/
def classifyInitial (fs : FS) : List String → ClassInit
  | [] => ⟨[], [], [], []⟩
  | g :: gs =>
    let r := classifyInitial fs gs
    if fs.isfile (contigsPath g) then
      ⟨(contigsPath g, flatContigsPath g) :: r.copies, g :: r.successful,
        r.failed, r.errLines⟩
    else
      ⟨r.copies, r.successful, g :: r.failed, (g ++ "\n") :: r.errLines⟩

/-- Fixed error message printed when the parallel invocation exits
nonzero (both passes use the same text). -/
def assemblyErrorMsg : String :=
  "ERROR: One or more genes had an error with SPAdes assembly. This may be due to low coverage. No contigs found for the following genes:\n"

/-- Observable result of `spades_initial`: the command it ran, the file
copies it performed, the success/failure classification, and stderr. -/
structure InitialResult where
  cmd : String
  copies : List (String × String)
  successful : List String
  failed : List String
  stderr : List String
deriving DecidableEq

/-- Embeds `spades_initial`.  `exitcode` is the exit status of the
`subprocess.call` on the parallel command (an input of the model).  The
deletion of a stale `spades.log` has no observable effect here and is
not recorded.  The Python function returns `spades_failed`; the other
fields record its side effects. -/
def spades_initial (fs : FS) (exitcode : Int) (genelist : String)
    (cov_cutoff : Int) (cpu : Option Int) (paired : Bool)
    (kvals : Option (List String)) : InitialResult :=
  let genes := (fs.lines genelist).map pyRstrip
  let cmd := make_spades_cmd genelist cov_cutoff cpu paired kvals
  let r := classifyInitial fs genes
  ⟨cmd, r.copies, r.successful, r.failed,
    ["Running SPAdes on " ++ toString genes.length ++ " genes\n", cmd ++ "\n"] ++
      (if exitcode ≠ 0 then [assemblyErrorMsg] else []) ++ r.errLines⟩

/-- Directory entries of `<gene>/<gene>_spades` whose name starts with
`"K"`, i.e. `[x for x in os.listdir(...) if x.startswith("K")]`. -/
def kmerEntries (fs : FS) (gene : String) : List String :=
  (fs.listdir (spadesDir gene)).filter fun x =>
    match x.data with
    | c :: _ => c = 'K'
    | [] => false

/-- Embeds the list comprehension `[int(x[1:]) for x in entries]`:
`none` models the `ValueError` raised by `int` on a malformed entry. -/
def parseKmers : List String → Option (List Int)
  | [] => some []
  | x :: xs =>
    match pyInt ⟨x.data.drop 1⟩, parseKmers xs with
    | some n, some ns => some (n :: ns)
    | _, _ => none

/-- Per-gene restart command built by `rerun_spades` from the ascending
sorted list of attempted k-mers (only called when that list has at
least two elements; `getLastD` stands in for Python's `[-1]`, which
cannot fail there). -/
def redoCmdFor (cov_cutoff : Int) (gene : String) (sortedKmers : List Int) : String :=
  let redo_kmers := sortedKmers.dropLast.map toString
  let restart_k := "k" ++ redo_kmers.getLastD ""
  let kv := String.intercalate "," redo_kmers
  "spades.py --restart-from " ++ restart_k ++ " -k " ++ kv ++
    " --threads 1 --cov-cutoff " ++ toString cov_cutoff ++ " -o " ++
    gene ++ "/" ++ gene ++ "_spades"

/-- Result of the first loop of `rerun_spades`: duds, genes to redo, and
the command lines written to `redo_spades_commands.txt` (in order).
The Python variables `all_redo_kmers` and `restart_ks` are initialised
but never used and are omitted. -/
structure Phase1 where
  duds : List String
  redos : List String
  commands : List String
deriving DecidableEq

/-- First loop of `rerun_spades`: per gene, parse the `K*` entries of
its assembly directory (a malformed entry raises `ValueError`); with
fewer than two k-mers the gene is a dud and is skipped, otherwise a
restart command dropping the largest k-mer is generated. -/
def redoPhase1 (fs : FS) (cov_cutoff : Int) : List String → Except PyErr Phase1
  | [] => .ok ⟨[], [], []⟩
  | g :: gs =>
    match parseKmers (kmerEntries fs g) with
    | none => .error .valueError
    | some ks =>
      let sorted := List.insertionSort (fun a b => a ≤ b) ks
      match redoPhase1 fs cov_cutoff gs with
      | .error e => .error e
      | .ok r =>
        if sorted.length < 2 then
          .ok ⟨g :: r.duds, r.redos, r.commands⟩
        else
          .ok ⟨r.duds, g :: r.redos, redoCmdFor cov_cutoff g sorted :: r.commands⟩

/-- Classification of one redone gene, embedding lines 109-116 of the
source: `os.path.isfile` is checked on the formatted per-gene path, but
`os.stat` is then called on the LITERAL template string
`"{}/{}_spades/contigs.fasta"` (the `.format` call is missing in the
source), raising `FileNotFoundError` when no file exists at that
literal path.  `ok true` means successful (file copied). -/
def classifyRedoGene (fs : FS) (g : String) : Except PyErr Bool :=
  if fs.isfile (contigsPath g) then
    if fs.isfile literalContigsTemplate then
      if 0 < fs.size literalContigsTemplate then .ok true else .ok false
    else .error (.fileNotFoundError literalContigsTemplate)
  else .ok false

/-- Result of the second loop of `rerun_spades` over the redone genes. -/
structure Phase2 where
  successful : List String
  failed : List String
  copies : List (String × String)
deriving DecidableEq

/-- Second loop of `rerun_spades`: classify each redone gene with
`classifyRedoGene`; successful genes are copied to the flattened name,
failed genes are collected. -/
def redoClassify (fs : FS) : List String → Except PyErr Phase2
  | [] => .ok ⟨[], [], []⟩
  | g :: gs =>
    match classifyRedoGene fs g with
    | .error e => .error e
    | .ok true =>
      (redoClassify fs gs).map fun r =>
        ⟨g :: r.successful, r.failed, (contigsPath g, flatContigsPath g) :: r.copies⟩
    | .ok false =>
      (redoClassify fs gs).map fun r =>
        ⟨r.successful, g :: r.failed, r.copies⟩

/-- The parallel command of the redo pass; with a truthy `cpu` the `-j`
limit is included, otherwise omitted. -/
def redoParallelCmd (cpu : Option Int) : String :=
  match cpuVal cpu with
  | some n =>
    "parallel -j " ++ toString n ++
      " --eta :::: redo_spades_commands.txt > spades_redo.log"
  | none => "parallel --eta :::: redo_spades_commands.txt > spades_redo.log"

/-- Observable result of `rerun_spades`: dud/redo split, the command
lines written to `redo_spades_commands.txt`, the parallel command used,
the post-run classification, the file copies, and stderr.  The Python
function returns `(spades_failed, spades_duds)`. -/
structure RerunResult where
  duds : List String
  redos : List String
  commands : List String
  redoCmd : String
  successful : List String
  failed : List String
  copies : List (String × String)
  stderr : List String
deriving DecidableEq

/-- Embeds `rerun_spades` on an already-read gene list (the body after
`genes = [x.rstrip() for x in open(genelist)]`).  `exitcode` is the
exit status of the parallel invocation. -/
def rerun_spades_genes (fs : FS) (exitcode : Int) (genes : List String)
    (cov_cutoff : Int) (cpu : Option Int) : Except PyErr RerunResult :=
  match redoPhase1 fs cov_cutoff genes with
  | .error e => .error e
  | .ok p1 =>
    match redoClassify fs p1.redos with
    | .error e => .error e
    | .ok p2 =>
      .ok ⟨p1.duds, p1.redos, p1.commands, redoParallelCmd cpu,
        p2.successful, p2.failed, p2.copies,
        p1.duds.map (fun g => "WARNING: All Kmers failed for " ++ g ++ "!\n") ++
          ["Re-running SPAdes for " ++ toString p1.redos.length ++ " genes\n",
            redoParallelCmd cpu ++ "\n"] ++
          (if exitcode ≠ 0 then [assemblyErrorMsg] else []) ++
          p2.failed.map (fun g => g ++ "\n")⟩

/-- Embeds `rerun_spades`: read and rstrip the gene list file, then run
the body. -/
def rerun_spades (fs : FS) (exitcode : Int) (genelist : String)
    (cov_cutoff : Int) (cpu : Option Int) : Except PyErr RerunResult :=
  rerun_spades_genes fs exitcode ((fs.lines genelist).map pyRstrip) cov_cutoff cpu

/-- Parsed command-line arguments of `main` (`--cpu` defaults to `0`,
`--cov_cutoff` to `8`, `--kvals` to `None`, `--redos_only` to false). -/
structure Args where
  genelist : String
  cpu : Int
  cov_cutoff : Int
  kvals : Option (List String)
  redos_only : Bool

/-- Observable outcome of `main` when no exception escapes: the process
exit code, whether the success message was printed, which branch ran,
the failure list of the initial pass, and the redo-pass result if a
redo pass ran. -/
structure MainResult where
  exitCode : Int
  successReported : Bool
  usedRedosOnlyPath : Bool
  initialFailed : List String
  redo : Option RerunResult
deriving DecidableEq

/-- Embeds `main`.  `e1`/`e2` are the exit codes of the initial and redo
parallel invocations.  In the redos-only branch the source calls
`rerun_spades("failed_spades.txt")` with all keyword arguments at their
defaults (`cov_cutoff=8`, `cpu=None`) and binds the returned pair to a
single unused variable; nothing further happens, so the process falls
off the end of `main` with exit status 0.  In the normal branch the
failure list is written to `failed_spades.txt` and immediately re-read
by `rerun_spades`; this write/read round trip is modelled by passing
the list directly (exact for newline-free rstripped names, which the
initial pass produces).  That call forwards `cov_cutoff` but not `cpu`,
so the redo pass always runs with `cpu=None`.  An uncaught exception is
an `Except.error` (the interpreter would exit with a traceback). -/
def pymain (fs : FS) (e1 e2 : Int) (a : Args) : Except PyErr MainResult :=
  if fs.isfile "failed_spades.txt" && a.redos_only then
    match rerun_spades fs e2 "failed_spades.txt" 8 none with
    | .error e => .error e
    | .ok r => .ok ⟨0, false, true, [], some r⟩
  else
    let ir := spades_initial fs e1 a.genelist a.cov_cutoff (some a.cpu) true a.kvals
    if ir.failed.length > 0 then
      match rerun_spades_genes fs e2 ir.failed a.cov_cutoff none with
      | .error e => .error e
      | .ok r =>
        if r.failed.length = 0 then .ok ⟨0, true, false, ir.failed, some r⟩
        else .ok ⟨1, false, false, ir.failed, some r⟩
    else .ok ⟨0, false, false, ir.failed, none⟩

/-! ### Characterization lemmas for the classification loops -/

/-- Initial-pass success predicate: the per-gene result file exists. -/
def initSucc (fs : FS) (g : String) : Bool :=
  fs.isfile (contigsPath g)

def sortedKmersD (fs : FS) (g : String) : List Int :=
  List.insertionSort (fun a b => a ≤ b) ((parseKmers (kmerEntries fs g)).getD [])

def isDud (fs : FS) (g : String) : Bool :=
  (sortedKmersD fs g).length < 2

def redoSucc (fs : FS) (g : String) : Bool :=
  fs.isfile (contigsPath g) && fs.isfile literalContigsTemplate &&
    decide (0 < fs.size literalContigsTemplate)

/-- Redos-only scenario: `failed_spades.txt` exists and lists the gene
`g`, whose prior assembly attempted k-mers 21 and 33 and produced no
result file. -/
def fsC1 : FS := ⟨["failed_spades.txt"], fun _ => 0,
  fun d => if d = "g/g_spades" then ["K21","K33"] else [],
  fun p => if p = "failed_spades.txt" then ["g"] else []⟩

/-- CLI arguments with `--redos_only`, a positive `--cpu` and a
non-default `--cov_cutoff`. -/
def argsC1 : Args := ⟨"genelist.txt", 4, 20, none, true⟩

/-- Redo-pass outcome for `fsC1`: gene `g` is retried and still fails. -/
def rC1 : RerunResult := ⟨[], ["g"],
  ["spades.py --restart-from k21 -k 21 --threads 1 --cov-cutoff 8 -o g/g_spades"],
  "parallel --eta :::: redo_spades_commands.txt > spades_redo.log",
  [], ["g"], [],
  ["Re-running SPAdes for 1 genes\n",
   "parallel --eta :::: redo_spades_commands.txt > spades_redo.log\n", "g\n"]⟩

/-- Normal-path scenario: the gene list `genes.txt` holds one gene `g`
with no result file; its assembly directory has k-mer attempts 21 and
33, and the redo also produces no result file. -/
def fsW1 : FS := ⟨[], fun _ => 0,
  fun d => if d = "g/g_spades" then ["K21","K33"] else [],
  fun p => if p = "genes.txt" then ["g"] else []⟩

/-- Default CLI arguments for the normal path. -/
def argsW1 : Args := ⟨"genes.txt", 0, 8, none, false⟩

/-- Redo-pass outcome for `fsW1`: gene `g` fails again. -/
def rW1 : RerunResult := ⟨[], ["g"],
  ["spades.py --restart-from k21 -k 21 --threads 1 --cov-cutoff 8 -o g/g_spades"],
  "parallel --eta :::: redo_spades_commands.txt > spades_redo.log",
  [], ["g"], [],
  ["Re-running SPAdes for 1 genes\n",
   "parallel --eta :::: redo_spades_commands.txt > spades_redo.log\n", "g\n"]⟩

/-- Overall outcome of `main` on `fsW1`: exit status 1. -/
def mW1 : MainResult := ⟨1, false, false, ["g"], some rW1⟩

/-- Dud-and-failure scenario: gene `d` has a single k-mer directory,
gene `g` has two and no result file. -/
def fsW4 : FS := ⟨[], fun _ => 0,
  fun d => if d = "d/d_spades" then ["K21"]
    else if d = "g/g_spades" then ["K21","K33"] else [],
  fun _ => []⟩

/-- Redo-pass outcome for `fsW4`: `d` is a dud, `g` fails. -/
def rW4 : RerunResult := ⟨["d"], ["g"],
  ["spades.py --restart-from k21 -k 21 --threads 1 --cov-cutoff 8 -o g/g_spades"],
  "parallel --eta :::: redo_spades_commands.txt > spades_redo.log",
  [], ["g"], [],
  ["WARNING: All Kmers failed for d!\n", "Re-running SPAdes for 1 genes\n",
   "parallel --eta :::: redo_spades_commands.txt > spades_redo.log\n", "g\n"]⟩

/-- Size-check-bug scenario: gene `g` has two k-mer directories and its
result file exists, but no file exists at the literal template path. -/
def fsW2 : FS := ⟨["g/g_spades/contigs.fasta"], fun _ => 0,
  fun d => if d = "g/g_spades" then ["K21","K33"] else [],
  fun _ => []⟩

/-- Three-k-mer scenario: gene `g` attempted k-mers 55, 21 and 33 (in
directory-listing order) and has no result file. -/
def fsW7 : FS := ⟨[], fun _ => 0,
  fun d => if d = "g/g_spades" then ["K55","K21","K33"] else [],
  fun _ => []⟩

/-- Redo-pass outcome for `fsW7`: restart from k33 with `-k 21,33`. -/
def rW7 : RerunResult := ⟨[], ["g"],
  ["spades.py --restart-from k33 -k 21,33 --threads 1 --cov-cutoff 8 -o g/g_spades"],
  "parallel --eta :::: redo_spades_commands.txt > spades_redo.log",
  [], ["g"], [],
  ["Re-running SPAdes for 1 genes\n",
   "parallel --eta :::: redo_spades_commands.txt > spades_redo.log\n", "g\n"]⟩

/-- One-gene scenario for the exit-code-independence witness. -/
def fsW9 : FS := ⟨[], fun _ => 0, fun _ => [],
  fun p => if p = "genes.txt" then ["g"] else []⟩

/-- Redos-only scenario for the CLI-arguments witness (same filesystem
shape as `fsC1`, with conspicuously non-default CLI values). -/
def fsC10 : FS := ⟨["failed_spades.txt"], fun _ => 0,
  fun d => if d = "g/g_spades" then ["K21","K33"] else [],
  fun p => if p = "failed_spades.txt" then ["g"] else []⟩

/-- CLI arguments with `--cpu 6` and `--cov_cutoff 99`. -/
def argsC10 : Args := ⟨"genelist.txt", 6, 99, none, true⟩

/-- Redo-pass outcome for `fsC10`. -/
def rC10 : RerunResult := ⟨[], ["g"],
  ["spades.py --restart-from k21 -k 21 --threads 1 --cov-cutoff 8 -o g/g_spades"],
  "parallel --eta :::: redo_spades_commands.txt > spades_redo.log",
  [], ["g"], [],
  ["Re-running SPAdes for 1 genes\n",
   "parallel --eta :::: redo_spades_commands.txt > spades_redo.log\n", "g\n"]⟩

/-- Overall outcome of `main` on `fsC10`. -/
def mC10 : MainResult := ⟨0, false, true, [], some rC10⟩

theorem classifyInitial_eq (fs : FS) (l : List String) :
    classifyInitial fs l =
      ⟨(l.filter (initSucc fs)).map (fun g => (contigsPath g, flatContigsPath g)),
        l.filter (initSucc fs),
        l.filter (fun g => !initSucc fs g),
        (l.filter (fun g => !initSucc fs g)).map (fun g => g ++ "\n")⟩ := by
  induction l with
  | nil => rfl
  | cons g gs ih =>
    simp only [classifyInitial, ih]
    by_cases h : fs.isfile (contigsPath g) = true
    · simp [List.filter_cons, initSucc, h]
    · simp only [Bool.not_eq_true] at h
      simp [List.filter_cons, initSucc, h]

theorem parseKmers_length {xs : List String} {ks : List Int}
    (h : parseKmers xs = some ks) : ks.length = xs.length := by
  induction xs generalizing ks with
  | nil => simp only [parseKmers, Option.some.injEq] at h; subst h; rfl
  | cons x xs ih =>
    simp only [parseKmers] at h
    cases hx : pyInt ⟨x.data.drop 1⟩ <;> rw [hx] at h
    · exact absurd h (by simp)
    · cases hr : parseKmers xs <;> rw [hr] at h
      · exact absurd h (by simp)
      · cases h; simpa using ih hr

theorem redoPhase1_ok {fs : FS} {cov : Int} {l : List String} {p : Phase1}
    (h : redoPhase1 fs cov l = Except.ok p) :
    p.duds = l.filter (isDud fs) ∧
    p.redos = l.filter (fun g => !isDud fs g) ∧
    p.commands = (l.filter (fun g => !isDud fs g)).map
      (fun g => redoCmdFor cov g (sortedKmersD fs g)) ∧
    ∀ g ∈ l, (parseKmers (kmerEntries fs g)).isSome := by
  induction l generalizing p with
  | nil =>
    simp only [redoPhase1, Except.ok.injEq] at h
    subst h
    simp
  | cons g gs ih =>
    simp only [redoPhase1] at h
    cases hx : parseKmers (kmerEntries fs g) <;> rw [hx] at h
    · exact absurd h (by simp)
    · rename_i ks
      dsimp only at h
      cases hr : redoPhase1 fs cov gs <;> rw [hr] at h
      · exact absurd h (by simp)
      · rename_i r
        dsimp only at h
        obtain ⟨hd, hrd, hc, hp⟩ := ih hr
        have hdud : isDud fs g = decide (ks.length < 2) := by
          simp [isDud, sortedKmersD, hx]
        have hsk : sortedKmersD fs g = List.insertionSort (fun a b => a ≤ b) ks := by
          simp [sortedKmersD, hx]
        rw [List.length_insertionSort] at h
        by_cases h2 : ks.length < 2
        · rw [if_pos h2] at h
          cases h
          refine ⟨?_, ?_, ?_, ?_⟩
          · simp [List.filter_cons, hdud, h2, hd]
          · simp [List.filter_cons, hdud, h2, hrd]
          · simp [List.filter_cons, hdud, h2, hc]
          · intro x hx'
            rcases List.mem_cons.mp hx' with hx' | hx'
            · subst hx'; simp [hx]
            · exact hp x hx'
        · rw [if_neg h2] at h
          cases h
          refine ⟨?_, ?_, ?_, ?_⟩
          · simp [List.filter_cons, hdud, h2, hd]
          · simp [List.filter_cons, hdud, h2, hrd]
          · simp [List.filter_cons, hdud, h2, hc, hsk, Nat.not_lt.mp h2]
          · intro x hx'
            rcases List.mem_cons.mp hx' with hx' | hx'
            · subst hx'; simp [hx]
            · exact hp x hx'

theorem redoClassify_ok {fs : FS} {l : List String} {p : Phase2}
    (h : redoClassify fs l = Except.ok p) :
    p.successful = l.filter (redoSucc fs) ∧
    p.failed = l.filter (fun g => !redoSucc fs g) ∧
    p.copies = (l.filter (redoSucc fs)).map
      (fun g => (contigsPath g, flatContigsPath g)) := by
  induction l generalizing p with
  | nil =>
    simp only [redoClassify, Except.ok.injEq] at h
    subst h
    simp
  | cons g gs ih =>
    simp only [redoClassify, classifyRedoGene] at h
    by_cases h1 : fs.isfile (contigsPath g) = true
    · rw [if_pos h1] at h
      by_cases h2 : fs.isfile literalContigsTemplate = true
      · rw [if_pos h2] at h
        by_cases h3 : 0 < fs.size literalContigsTemplate
        · rw [if_pos h3] at h
          dsimp only at h
          cases hr : redoClassify fs gs <;> rw [hr] at h
          · exact absurd h (by simp [Except.map])
          · simp only [Except.map, Except.ok.injEq] at h
            subst h
            obtain ⟨hs, hf, hc⟩ := ih hr
            have hsg : redoSucc fs g = true := by simp [redoSucc, h1, h2, h3]
            simp [List.filter_cons, hsg, hs, hf, hc]
        · rw [if_neg h3] at h
          dsimp only at h
          cases hr : redoClassify fs gs <;> rw [hr] at h
          · exact absurd h (by simp [Except.map])
          · simp only [Except.map, Except.ok.injEq] at h
            subst h
            obtain ⟨hs, hf, hc⟩ := ih hr
            have hsg : redoSucc fs g = false := by
              simp only [redoSucc, Bool.and_eq_false_iff]
              right
              simpa using h3
            simp [List.filter_cons, hsg, hs, hf, hc]
      · rw [if_neg h2] at h
        dsimp only at h
        exact absurd h (by simp)
    · rw [if_neg h1] at h
      dsimp only at h
      cases hr : redoClassify fs gs <;> rw [hr] at h
      · exact absurd h (by simp [Except.map])
      · simp only [Except.map, Except.ok.injEq] at h
        subst h
        obtain ⟨hs, hf, hc⟩ := ih hr
        have hsg : redoSucc fs g = false := by
          simp only [Bool.not_eq_true] at h1
          simp [redoSucc, h1]
        simp [List.filter_cons, hsg, hs, hf, hc]

theorem rerun_ok {fs : FS} {e : Int} {l : List String} {cov : Int}
    {cpu : Option Int} {r : RerunResult}
    (h : rerun_spades_genes fs e l cov cpu = Except.ok r) :
    r.duds = l.filter (isDud fs) ∧
    r.redos = l.filter (fun g => !isDud fs g) ∧
    r.commands = (l.filter (fun g => !isDud fs g)).map
      (fun g => redoCmdFor cov g (sortedKmersD fs g)) ∧
    r.successful = r.redos.filter (redoSucc fs) ∧
    r.failed = r.redos.filter (fun g => !redoSucc fs g) ∧
    r.copies = (r.redos.filter (redoSucc fs)).map
      (fun g => (contigsPath g, flatContigsPath g)) ∧
    r.redoCmd = redoParallelCmd cpu ∧
    ∀ g ∈ l, (parseKmers (kmerEntries fs g)).isSome := by
  simp only [rerun_spades_genes] at h
  cases h1 : redoPhase1 fs cov l <;> rw [h1] at h <;> dsimp only at h
  · exact absurd h (by simp)
  · rename_i p1
    cases h2 : redoClassify fs p1.redos <;> rw [h2] at h <;> dsimp only at h
    · exact absurd h (by simp)
    · rename_i p2
      simp only [Except.ok.injEq] at h
      subst h
      obtain ⟨hd, hrd, hc, hp⟩ := redoPhase1_ok h1
      obtain ⟨hs, hf, hcp⟩ := redoClassify_ok h2
      exact ⟨hd, hrd, hc, hs, hf, hcp, rfl, hp⟩

/-! ### Claim theorems -/

/-- C3: after the initial pass, every gene of the input list is exactly
one of successful/failed, determined solely by existence of
`<gene>/<gene>_spades/contigs.fasta`; each successful gene is copied to
`<gene>/<gene>_contigs.fasta`, and the returned failure list is exactly
the genes without that file, in input order. -/
theorem initial_pass_partition (fs : FS) (e : Int) (genelist : String)
    (cov : Int) (cpu : Option Int) (paired : Bool)
    (kvals : Option (List String)) :
    (spades_initial fs e genelist cov cpu paired kvals).failed =
      ((fs.lines genelist).map pyRstrip).filter
        (fun g => !fs.isfile (contigsPath g)) ∧
    (spades_initial fs e genelist cov cpu paired kvals).successful =
      ((fs.lines genelist).map pyRstrip).filter
        (fun g => fs.isfile (contigsPath g)) ∧
    (spades_initial fs e genelist cov cpu paired kvals).copies =
      (((fs.lines genelist).map pyRstrip).filter
        (fun g => fs.isfile (contigsPath g))).map
        (fun g => (contigsPath g, flatContigsPath g)) ∧
    ∀ g ∈ (fs.lines genelist).map pyRstrip,
      (g ∈ (spades_initial fs e genelist cov cpu paired kvals).successful ∧
        g ∉ (spades_initial fs e genelist cov cpu paired kvals).failed) ∨
      (g ∉ (spades_initial fs e genelist cov cpu paired kvals).successful ∧
        g ∈ (spades_initial fs e genelist cov cpu paired kvals).failed) := by
  have hcl := classifyInitial_eq fs ((fs.lines genelist).map pyRstrip)
  have hfun : initSucc fs = fun g => fs.isfile (contigsPath g) := rfl
  refine ⟨?_, ?_, ?_, ?_⟩
  · simp [spades_initial, hcl, hfun]
  · simp [spades_initial, hcl, hfun]
  · simp [spades_initial, hcl, hfun]
  · intro g hg
    by_cases h : fs.isfile (contigsPath g) = true
    · left
      constructor
      · simp [spades_initial, hcl, hfun, List.mem_filter, hg, h]
      · simp [spades_initial, hcl, hfun, List.mem_filter, h]
    · right
      simp only [Bool.not_eq_true] at h
      constructor
      · simp [spades_initial, hcl, hfun, List.mem_filter, h]
      · simp [spades_initial, hcl, hfun, List.mem_filter, hg, h]

/-- C8: the redo pass on an empty gene list (every gene already
successful, so the failure list is vacuous) performs no result-file
copies and returns an empty failure list and an empty dud list. -/
theorem rerun_empty_genelist (fs : FS) (e cov : Int) (cpu : Option Int) :
    ∃ r, rerun_spades_genes fs e [] cov cpu = Except.ok r ∧
      r.copies = [] ∧ r.failed = [] ∧ r.duds = [] := by
  exact ⟨_, rfl, rfl, rfl, rfl⟩

set_option maxRecDepth 40000 in
/-- C5: the command built by `make_spades_cmd` for `cpu = 4`,
`kvals = ["21","33"]`, `cov_cutoff = 10` and paired input contains the
literal fragments `-j 4`, `-k 21,33`, `--cov-cutoff 10` and `--12`. -/
theorem make_spades_cmd_fragments :
    "-j 4".data <:+:
      (make_spades_cmd "gene_names.txt" 10 (some 4) true (some ["21","33"])).data ∧
    "-k 21,33".data <:+:
      (make_spades_cmd "gene_names.txt" 10 (some 4) true (some ["21","33"])).data ∧
    "--cov-cutoff 10".data <:+:
      (make_spades_cmd "gene_names.txt" 10 (some 4) true (some ["21","33"])).data ∧
    "--12".data <:+:
      (make_spades_cmd "gene_names.txt" 10 (some 4) true (some ["21","33"])).data := by
  decide

/-- C4: when the redo pass returns, each gene of its input list is in
exactly one of {successful, failed, dud}; the duds are exactly those
genes whose assembly directory lists fewer than two entries starting
with `"K"` (in input order), and a dud is never retried (not in the
redo set) and never appears in the returned failure list. -/
theorem rerun_partition (fs : FS) (e : Int) (genes : List String)
    (cov : Int) (cpu : Option Int) (r : RerunResult)
    (h : rerun_spades_genes fs e genes cov cpu = Except.ok r) :
    (∀ g ∈ genes,
      (g ∈ r.successful ∧ g ∉ r.failed ∧ g ∉ r.duds) ∨
      (g ∉ r.successful ∧ g ∈ r.failed ∧ g ∉ r.duds) ∨
      (g ∉ r.successful ∧ g ∉ r.failed ∧ g ∈ r.duds)) ∧
    r.duds = genes.filter (fun g => decide ((kmerEntries fs g).length < 2)) ∧
    ∀ g ∈ r.duds, g ∉ r.redos ∧ g ∉ r.failed := by
  obtain ⟨hd, hrd, hc, hs, hf, hcp, hcmd, hp⟩ := rerun_ok h
  have hdud : ∀ g ∈ genes, isDud fs g = decide ((kmerEntries fs g).length < 2) := by
    intro g hg
    obtain ⟨ks, hks⟩ := Option.isSome_iff_exists.mp (hp g hg)
    simp [isDud, sortedKmersD, hks, parseKmers_length hks]
  have hnotredos : ∀ g, isDud fs g = true → g ∉ r.redos := by
    intro g hDg hmem
    rw [hrd] at hmem
    have := (List.mem_filter.mp hmem).2
    simp [hDg] at this
  have hnotfail : ∀ g, isDud fs g = true → g ∉ r.failed := by
    intro g hDg hmem
    rw [hf] at hmem
    exact hnotredos g hDg (List.mem_filter.mp hmem).1
  have hnotsucc : ∀ g, isDud fs g = true → g ∉ r.successful := by
    intro g hDg hmem
    rw [hs] at hmem
    exact hnotredos g hDg (List.mem_filter.mp hmem).1
  refine ⟨?_, ?_, ?_⟩
  · intro g hg
    by_cases hD : isDud fs g = true
    · right; right
      refine ⟨hnotsucc g hD, hnotfail g hD, ?_⟩
      rw [hd]
      exact List.mem_filter.mpr ⟨hg, hD⟩
    · have hD' : isDud fs g = false := by simpa using hD
      have hredo : g ∈ r.redos := by
        rw [hrd]
        exact List.mem_filter.mpr ⟨hg, by simp [hD']⟩
      have hnd : g ∉ r.duds := by
        intro hmem
        rw [hd] at hmem
        have := (List.mem_filter.mp hmem).2
        rw [hD'] at this
        exact absurd this (by simp)
      by_cases hS : redoSucc fs g = true
      · left
        refine ⟨?_, ?_, hnd⟩
        · rw [hs]; exact List.mem_filter.mpr ⟨hredo, hS⟩
        · intro hmem
          rw [hf] at hmem
          have := (List.mem_filter.mp hmem).2
          simp [hS] at this
      · have hS' : redoSucc fs g = false := by simpa using hS
        right; left
        refine ⟨?_, ?_, hnd⟩
        · intro hmem
          rw [hs] at hmem
          have := (List.mem_filter.mp hmem).2
          rw [hS'] at this
          exact absurd this (by simp)
        · rw [hf]; exact List.mem_filter.mpr ⟨hredo, by simp [hS']⟩
  · rw [hd]
    exact List.filter_congr hdud
  · intro g hmem
    rw [hd] at hmem
    have hDg := (List.mem_filter.mp hmem).2
    exact ⟨hnotredos g hDg, hnotfail g hDg⟩

/-- C2: in the redo pass, for any gene whose result file exists, the
non-zero-size check stats the LITERAL unformatted path template
`"{}/{}_spades/contigs.fasta"` (the gene name is never substituted):
when no file exists at that literal path the pass raises
`FileNotFoundError` on the literal path, and when such a file exists
the gene's classification is decided by the size of that literal file,
not of the gene's own result file. -/
theorem redo_size_check_literal_path (fs : FS) (e cov : Int)
    (cpu : Option Int) (g : String) (ks : List Int)
    (hk : parseKmers (kmerEntries fs g) = some ks)
    (h2 : 2 ≤ ks.length)
    (hf : fs.isfile (contigsPath g) = true) :
    (fs.isfile literalContigsTemplate = false →
      rerun_spades_genes fs e [g] cov cpu =
        Except.error (PyErr.fileNotFoundError literalContigsTemplate)) ∧
    (fs.isfile literalContigsTemplate = true →
      ∀ r, rerun_spades_genes fs e [g] cov cpu = Except.ok r →
        (0 < fs.size literalContigsTemplate →
          r.successful = [g] ∧ r.failed = []) ∧
        (fs.size literalContigsTemplate ≤ 0 →
          r.failed = [g] ∧ r.successful = [])) := by
  have hnotdud : ¬ (List.insertionSort (fun a b => a ≤ b) ks).length < 2 := by
    rw [List.length_insertionSort]
    omega
  have hph : redoPhase1 fs cov [g] =
      Except.ok ⟨[], [g],
        [redoCmdFor cov g (List.insertionSort (fun a b => a ≤ b) ks)]⟩ := by
    simp only [redoPhase1, hk]
    rw [if_neg hnotdud]
  have hD : isDud fs g = false := by
    simp only [isDud, sortedKmersD, hk, Option.getD_some, List.length_insertionSort]
    simpa using Nat.not_lt.mpr h2
  constructor
  · intro hlit
    simp only [rerun_spades_genes, hph]
    have hcl : redoClassify fs [g] =
        Except.error (PyErr.fileNotFoundError literalContigsTemplate) := by
      simp [redoClassify, classifyRedoGene, hf, hlit]
    simp [hcl]
  · intro hlit r hr
    obtain ⟨hd, hrd, hc, hs, hfl, hcp, hcmd, hp⟩ := rerun_ok hr
    have hredos : r.redos = [g] := by
      rw [hrd]
      simp [List.filter_cons, hD]
    constructor
    · intro hsz
      have hS : redoSucc fs g = true := by simp [redoSucc, hf, hlit, hsz]
      constructor
      · rw [hs, hredos]; simp [List.filter_cons, hS]
      · rw [hfl, hredos]; simp [List.filter_cons, hS]
    · intro hsz
      have hS : redoSucc fs g = false := by
        simp only [redoSucc, Bool.and_eq_false_iff]
        right
        simpa using Int.not_lt.mpr hsz
      constructor
      · rw [hfl, hredos]; simp [List.filter_cons, hS]
      · rw [hs, hredos]; simp [List.filter_cons, hS]

/-- C9: a nonzero exit code from the parallel invocation only adds a
warning line to stderr: in both passes the per-gene classification and
all returned lists are the same for any two exit codes, the initial
pass classifies every gene as successful or failed regardless, and the
warning message does appear on a nonzero exit code. -/
theorem exitcode_warning_only (fs : FS) (e eAlt : Int) (genelist : String)
    (cov : Int) (cpu : Option Int) (paired : Bool)
    (kvals : Option (List String)) (l : List String) :
    ((spades_initial fs e genelist cov cpu paired kvals).failed =
      (spades_initial fs eAlt genelist cov cpu paired kvals).failed) ∧
    ((spades_initial fs e genelist cov cpu paired kvals).successful =
      (spades_initial fs eAlt genelist cov cpu paired kvals).successful) ∧
    ((spades_initial fs e genelist cov cpu paired kvals).copies =
      (spades_initial fs eAlt genelist cov cpu paired kvals).copies) ∧
    (∀ g ∈ (fs.lines genelist).map pyRstrip,
      g ∈ (spades_initial fs e genelist cov cpu paired kvals).successful ∨
      g ∈ (spades_initial fs e genelist cov cpu paired kvals).failed) ∧
    (e ≠ 0 →
      assemblyErrorMsg ∈ (spades_initial fs e genelist cov cpu paired kvals).stderr) ∧
    ((rerun_spades_genes fs e l cov cpu).isOk =
      (rerun_spades_genes fs eAlt l cov cpu).isOk) ∧
    (∀ r rAlt, rerun_spades_genes fs e l cov cpu = Except.ok r →
      rerun_spades_genes fs eAlt l cov cpu = Except.ok rAlt →
      r.failed = rAlt.failed ∧ r.duds = rAlt.duds ∧
      r.successful = rAlt.successful ∧ r.copies = rAlt.copies ∧
      r.commands = rAlt.commands) ∧
    (e ≠ 0 → ∀ r, rerun_spades_genes fs e l cov cpu = Except.ok r →
      assemblyErrorMsg ∈ r.stderr) := by
  refine ⟨rfl, rfl, rfl, ?_, ?_, ?_, ?_, ?_⟩
  · intro g hg
    have hcl := classifyInitial_eq fs ((fs.lines genelist).map pyRstrip)
    by_cases h : initSucc fs g = true
    · left
      simp [spades_initial, hcl, List.mem_filter, hg, h]
    · right
      have h' : initSucc fs g = false := by simpa using h
      simp [spades_initial, hcl, List.mem_filter, hg, h']
  · intro he
    simp [spades_initial, he]
  · cases h1 : redoPhase1 fs cov l with
    | error err => simp [rerun_spades_genes, h1]
    | ok p1 =>
      cases h2 : redoClassify fs p1.redos with
      | error err => simp [rerun_spades_genes, h1, h2]
      | ok p2 => simp [rerun_spades_genes, h1, h2, Except.isOk, Except.toBool]
  · intro r rAlt hr hrAlt
    obtain ⟨hd, hrd, hc, hs, hfl, hcp, hcmd, hp⟩ := rerun_ok hr
    obtain ⟨hd', hrd', hc', hs', hfl', hcp', hcmd', hp'⟩ := rerun_ok hrAlt
    refine ⟨?_, ?_, ?_, ?_, ?_⟩
    · rw [hfl, hfl', hrd, hrd']
    · rw [hd, hd']
    · rw [hs, hs', hrd, hrd']
    · rw [hcp, hcp', hrd, hrd']
    · rw [hc, hc']
  · intro he r hr
    simp only [rerun_spades_genes] at hr
    cases h1 : redoPhase1 fs cov l <;> rw [h1] at hr <;> dsimp only at hr
    · exact absurd hr (by simp)
    · cases h2 : redoClassify fs _ <;> rw [h2] at hr <;> dsimp only at hr
      · exact absurd hr (by simp)
      · simp only [Except.ok.injEq] at hr
        subst hr
        simp [he]

/-- Decomposition of a sorted list of length at least two into a prefix,
its second-largest element and its largest element. -/
theorem sorted_two_decomp (L : List Int)
    (hs : List.Sorted (fun a b => a ≤ b) L) (h2 : 2 ≤ L.length) :
    ∃ small second maxv, L = small ++ [second, maxv] ∧
      (∀ x ∈ L, x ≤ maxv) ∧ (∀ x ∈ small, x ≤ second) ∧ second ≤ maxv := by
  induction L with
  | nil => simp at h2
  | cons a l ih =>
    rcases l with _ | ⟨b, l2⟩
    · simp at h2
    · rcases l2 with _ | ⟨c, l3⟩
      · refine ⟨[], a, b, rfl, ?_, by simp, ?_⟩
        · intro x hx
          have hab : a ≤ b := (List.sorted_cons.mp hs).1 b (by simp)
          rcases List.mem_cons.mp hx with rfl | hx'
          · exact hab
          · simp only [List.mem_singleton] at hx'
            subst hx'
            exact le_refl _
        · exact (List.sorted_cons.mp hs).1 b (by simp)
      · have hs' := (List.sorted_cons.mp hs).2
        obtain ⟨s, sec, mx, heq, hmx, hsec, hsm⟩ := ih hs' (by simp)
        refine ⟨a :: s, sec, mx, by simp [heq], ?_, ?_, hsm⟩
        · intro x hx
          rcases List.mem_cons.mp hx with rfl | hx'
          · have hmem : mx ∈ b :: c :: l3 := by rw [heq]; simp
            exact (List.sorted_cons.mp hs).1 mx hmem
          · exact hmx x hx'
        · intro x hx
          rcases List.mem_cons.mp hx with rfl | hx'
          · have hmem : sec ∈ b :: c :: l3 := by rw [heq]; simp
            exact (List.sorted_cons.mp hs).1 sec hmem
          · exact hsec x hx'

/-- C7: for a gene with at least two attempted k-mers, the redo pass
sorts the attempted k-mer values ascending, drops the largest, builds a
restart command resuming from the next-largest k-mer (`--restart-from
k<second-largest>`) whose `-k` list is all attempted values except the
largest, ascending and comma-joined, and appends exactly that command
to the generated command file. -/
theorem redo_drops_largest_kmer (fs : FS) (e cov : Int) (cpu : Option Int)
    (g : String) (ks : List Int)
    (hk : parseKmers (kmerEntries fs g) = some ks)
    (h2 : 2 ≤ ks.length) (r : RerunResult)
    (hr : rerun_spades_genes fs e [g] cov cpu = Except.ok r) :
    ∃ small second maxv,
      List.insertionSort (fun a b => a ≤ b) ks = small ++ [second, maxv] ∧
      (small ++ [second, maxv]).Perm ks ∧
      List.Sorted (fun a b => a ≤ b) (small ++ [second, maxv]) ∧
      (∀ x ∈ ks, x ≤ maxv) ∧ (∀ x ∈ small, x ≤ second) ∧ second ≤ maxv ∧
      r.commands =
        ["spades.py --restart-from " ++ "k" ++ toString second ++ " -k " ++
          String.intercalate "," ((small ++ [second]).map toString) ++
          " --threads 1 --cov-cutoff " ++ toString cov ++ " -o " ++
          g ++ "/" ++ g ++ "_spades"] := by
  have hperm : (List.insertionSort (fun a b => a ≤ b) ks).Perm ks :=
    List.perm_insertionSort _ ks
  have hsorted : List.Sorted (fun a b => a ≤ b)
      (List.insertionSort (fun a b => a ≤ b) ks) :=
    List.sorted_insertionSort _ ks
  have hlen : (List.insertionSort (fun a b => a ≤ b) ks).length = ks.length :=
    List.length_insertionSort _ ks
  obtain ⟨small, second, maxv, heq, hmx, hsec, hsm⟩ :=
    sorted_two_decomp _ hsorted (by omega)
  refine ⟨small, second, maxv, heq, heq ▸ hperm, heq ▸ hsorted, ?_, hsec, hsm, ?_⟩
  · intro x hx
    exact hmx x (hperm.symm.subset hx)
  · obtain ⟨hd, hrd, hc, hs, hfl, hcp, hcmd, hp⟩ := rerun_ok hr
    have hD : isDud fs g = false := by
      simp only [isDud, sortedKmersD, hk, Option.getD_some, List.length_insertionSort]
      simpa using Nat.not_lt.mpr h2
    have hsk : sortedKmersD fs g = List.insertionSort (fun a b => a ≤ b) ks := by
      simp [sortedKmersD, hk]
    have hcmds : r.commands =
        [redoCmdFor cov g (List.insertionSort (fun a b => a ≤ b) ks)] := by
      rw [hc]
      simp [List.filter_cons, hD, hsk]
    rw [hcmds, heq]
    have hsplit : small ++ [second, maxv] = (small ++ [second]) ++ [maxv] := by
      simp
    have hdrop : (small ++ [second, maxv]).dropLast = small ++ [second] := by
      rw [hsplit, List.dropLast_concat]
    simp only [redoCmdFor, hdrop, List.map_append, List.map_cons, List.map_nil,
      List.getLastD_concat, List.cons.injEq, and_true]
    simp only [String.append_assoc]

set_option maxRecDepth 40000 in
/-- C6: when the `cpu` argument is unset or `0`, the generated command
contains no `-j` concurrency flag at all (unlimited concurrency is
encoded by omitting the flag); when `cpu` is a positive `n` the command
contains `-j n`.  The hypotheses state that the caller-supplied strings
(gene-list path, printed coverage cutoff, joined k-values) do not
themselves contain the letter `j`. -/
theorem cpu_flag_omitted_iff (genelist : String) (cov : Int)
    (kvals : Option (List String)) (cpu : Option Int) (paired : Bool)
    (hg : 'j' ∉ genelist.data)
    (hc : 'j' ∉ (toString cov).data)
    (hk : ∀ s, kvalsJoined kvals = some s → 'j' ∉ s.data) :
    ((cpu = none ∨ cpu = some 0) →
      ¬ ("-j".data <:+: (make_spades_cmd genelist cov cpu paired kvals).data)) ∧
    (∀ n : Int, cpu = some n → 0 < n →
      ("-j " ++ toString n).data <:+:
        (make_spades_cmd genelist cov cpu paired kvals).data) := by
  constructor
  · intro hcpu habs
    have hcv : cpuVal cpu = none := by
      rcases hcpu with rfl | rfl <;> simp [cpuVal]
    have hj : 'j' ∈ (make_spades_cmd genelist cov cpu paired kvals).data :=
      habs.subset (by decide)
    cases hkj : kvalsJoined kvals with
    | none =>
      simp only [make_spades_cmd, hcv, hkj] at hj
      cases hp : paired <;> rw [hp] at hj <;>
        simp only [if_true, if_false, Bool.false_eq_true, String.data_append,
          List.mem_append, List.append_assoc, or_assoc] at hj <;>
        rcases hj with hj | hj | hj | hj | hj | hj | hj <;>
        first
          | exact hg hj
          | exact hc hj
          | exact absurd hj (by decide)
    | some k =>
      have hk' := hk k hkj
      simp only [make_spades_cmd, hcv, hkj] at hj
      cases hp : paired <;> rw [hp] at hj <;>
        simp only [if_true, if_false, Bool.false_eq_true, String.data_append,
          List.mem_append, List.append_assoc, or_assoc] at hj <;>
        rcases hj with hj | hj | hj | hj | hj | hj | hj | hj | hj <;>
        first
          | exact hg hj
          | exact hc hj
          | exact hk' hj
          | exact absurd hj (by decide)
  · intro n hn hpos
    subst hn
    have hcv : cpuVal (some n) = some n := by
      simp [cpuVal]
      omega
    cases hkj : kvalsJoined kvals with
    | none =>
      simp only [make_spades_cmd, hcv, hkj]
      refine ⟨"time parallel ".data,
        ((" --eta spades.py --only-assembler --threads 1 --cov-cutoff " ++
          toString cov ++ " " ++ (if paired then "--12" else "-s") ++
          " \x7b\x7d/\x7b\x7d_interleaved.fasta -o \x7b\x7d/\x7b\x7d_spades :::: " ++
          genelist ++ " > spades.log")).data, ?_⟩
      simp only [String.data_append, List.append_assoc]
      rfl
    | some k =>
      simp only [make_spades_cmd, hcv, hkj]
      refine ⟨"time parallel ".data,
        ((" --eta spades.py --only-assembler -k " ++ k ++
          " --threads 1 --cov-cutoff " ++ toString cov ++ " " ++
          (if paired then "--12" else "-s") ++
          " \x7b\x7d/\x7b\x7d_interleaved.fasta -o \x7b\x7d/\x7b\x7d_spades :::: " ++
          genelist ++ " > spades.log")).data, ?_⟩
      simp only [String.data_append, List.append_assoc]
      rfl

/-- Every restart command generated with the default coverage cutoff 8
carries the fragment `--cov-cutoff 8 -o `. -/
theorem redoCmdFor_default_cov_frag (g : String) (L : List Int) :
    "--cov-cutoff 8 -o ".data <:+: (redoCmdFor 8 g L).data := by
  refine ⟨("spades.py --restart-from " ++
      ("k" ++ (L.dropLast.map toString).getLastD "") ++ " -k " ++
      String.intercalate "," (L.dropLast.map toString) ++ " --threads 1 ").data,
    (g ++ "/" ++ g ++ "_spades").data, ?_⟩
  simp only [redoCmdFor, String.data_append, List.append_assoc]
  rfl

/-- C10: `main` never forwards `--cpu` to the redo pass, so on every
path the redo parallel command is the one without a `-j` flag, whatever
`args.cpu` is; and the redos-only branch also leaves `cov_cutoff` at
its default `8`, so every generated restart command there carries
`--cov-cutoff 8` regardless of `args.cov_cutoff`. -/
theorem main_redo_ignores_cli_args (fs : FS) (e1 e2 : Int) (a : Args) :
    (∀ r rr, pymain fs e1 e2 a = Except.ok r → r.redo = some rr →
      rr.redoCmd =
        "parallel --eta :::: redo_spades_commands.txt > spades_redo.log") ∧
    ((fs.isfile "failed_spades.txt" && a.redos_only) = true →
      ∀ r rr, pymain fs e1 e2 a = Except.ok r → r.redo = some rr →
        ∀ c ∈ rr.commands, "--cov-cutoff 8 -o ".data <:+: c.data) := by
  constructor
  · intro r rr hmain hredo
    by_cases hguard : (fs.isfile "failed_spades.txt" && a.redos_only) = true
    · rw [pymain, if_pos hguard] at hmain
      cases hrr : rerun_spades fs e2 "failed_spades.txt" 8 none with
      | error err =>
        rw [hrr] at hmain
        exact absurd hmain (by simp)
      | ok rr0 =>
        rw [hrr] at hmain
        simp only [Except.ok.injEq] at hmain
        subst hmain
        simp only [Option.some.injEq] at hredo
        subst hredo
        obtain ⟨-, -, -, -, -, -, hcmd, -⟩ := rerun_ok hrr
        exact hcmd
    · rw [pymain, if_neg hguard] at hmain
      dsimp only at hmain
      by_cases hfail :
          (spades_initial fs e1 a.genelist a.cov_cutoff (some a.cpu) true a.kvals).failed.length > 0
      · rw [if_pos hfail] at hmain
        cases hrr : rerun_spades_genes fs e2
            (spades_initial fs e1 a.genelist a.cov_cutoff (some a.cpu) true a.kvals).failed
            a.cov_cutoff none with
        | error err =>
          rw [hrr] at hmain
          exact absurd hmain (by simp)
        | ok rr0 =>
          rw [hrr] at hmain
          dsimp only at hmain
          by_cases hz : rr0.failed.length = 0
          · rw [if_pos hz] at hmain
            simp only [Except.ok.injEq] at hmain
            subst hmain
            simp only [Option.some.injEq] at hredo
            subst hredo
            obtain ⟨-, -, -, -, -, -, hcmd, -⟩ := rerun_ok hrr
            exact hcmd
          · rw [if_neg hz] at hmain
            simp only [Except.ok.injEq] at hmain
            subst hmain
            simp only [Option.some.injEq] at hredo
            subst hredo
            obtain ⟨-, -, -, -, -, -, hcmd, -⟩ := rerun_ok hrr
            exact hcmd
      · rw [if_neg hfail] at hmain
        simp only [Except.ok.injEq] at hmain
        subst hmain
        exact absurd hredo (by simp)
  · intro hguard r rr hmain hredo c hc
    rw [pymain, if_pos hguard] at hmain
    cases hrr : rerun_spades fs e2 "failed_spades.txt" 8 none with
    | error err =>
      rw [hrr] at hmain
      exact absurd hmain (by simp)
    | ok rr0 =>
      rw [hrr] at hmain
      simp only [Except.ok.injEq] at hmain
      subst hmain
      simp only [Option.some.injEq] at hredo
      subst hredo
      obtain ⟨-, -, hcmds, -, -, -, -, -⟩ := rerun_ok hrr
      rw [hcmds] at hc
      obtain ⟨g, -, hcg⟩ := List.mem_map.mp hc
      rw [← hcg]
      exact redoCmdFor_default_cov_frag g (sortedKmersD fs g)

/-- C1 (amended): in the normal path, `main` exits 0 without a redo
pass when the initial pass has no failures, reports success and exits 0
when the redo pass leaves no failures, and exits 1 when failures
remain; in the redos-only path the outcome of the redo pass is ignored
and the process always exits 0 with no success report. -/
theorem main_exit_codes (fs : FS) (e1 e2 : Int) (a : Args) :
    ((fs.isfile "failed_spades.txt" && a.redos_only) = false →
      ∀ r, pymain fs e1 e2 a = Except.ok r →
        (r.redo = none → r.exitCode = 0) ∧
        ∀ rr, r.redo = some rr →
          (rr.failed = [] → r.exitCode = 0 ∧ r.successReported = true) ∧
          (rr.failed ≠ [] → r.exitCode = 1)) ∧
    ((fs.isfile "failed_spades.txt" && a.redos_only) = true →
      ∀ r, pymain fs e1 e2 a = Except.ok r →
        r.exitCode = 0 ∧ r.successReported = false) := by
  constructor
  · intro hguard r hmain
    rw [pymain, if_neg (by simp [hguard])] at hmain
    dsimp only at hmain
    by_cases hfail :
        (spades_initial fs e1 a.genelist a.cov_cutoff (some a.cpu) true a.kvals).failed.length > 0
    · rw [if_pos hfail] at hmain
      cases hrr : rerun_spades_genes fs e2
          (spades_initial fs e1 a.genelist a.cov_cutoff (some a.cpu) true a.kvals).failed
          a.cov_cutoff none with
      | error err =>
        rw [hrr] at hmain
        exact absurd hmain (by simp)
      | ok rr0 =>
        rw [hrr] at hmain
        dsimp only at hmain
        by_cases hz : rr0.failed.length = 0
        · rw [if_pos hz] at hmain
          simp only [Except.ok.injEq] at hmain
          subst hmain
          refine ⟨by simp, ?_⟩
          intro rr hrr'
          simp only [Option.some.injEq] at hrr'
          subst hrr'
          exact ⟨fun _ => ⟨rfl, rfl⟩, fun hne => absurd (List.length_eq_zero.mp hz) hne⟩
        · rw [if_neg hz] at hmain
          simp only [Except.ok.injEq] at hmain
          subst hmain
          refine ⟨by simp, ?_⟩
          intro rr hrr'
          simp only [Option.some.injEq] at hrr'
          subst hrr'
          refine ⟨fun hnil => absurd (by simp [hnil]) hz, fun _ => rfl⟩
    · rw [if_neg hfail] at hmain
      simp only [Except.ok.injEq] at hmain
      subst hmain
      exact ⟨fun _ => rfl, fun rr hrr' => absurd hrr' (by simp)⟩
  · intro hguard r hmain
    rw [pymain, if_pos hguard] at hmain
    cases hrr : rerun_spades fs e2 "failed_spades.txt" 8 none with
    | error err =>
      rw [hrr] at hmain
      exact absurd hmain (by simp)
    | ok rr0 =>
      rw [hrr] at hmain
      simp only [Except.ok.injEq] at hmain
      subst hmain
      exact ⟨rfl, rfl⟩

/-! ### Concrete scenarios (witnesses and counterexample inputs) -/

/-- C1 counterexample: in the redos-only path the redo pass leaves the
gene `g` failed (its result file does not exist), yet the process exits
with status 0 and never reports success — contradicting the claim that
the exit-code rules hold on the redos-only path. -/
theorem main_redos_only_ignores_failures :
    pymain fsC1 0 0 argsC1 = Except.ok ⟨0, false, true, [], some rC1⟩ ∧
    rC1.failed = ["g"] ∧
    fsC1.isfile (contigsPath "g") = false := by
  exact ⟨rfl, rfl, rfl⟩

/-- Witness for the exit-code theorem: on the concrete normal-path run
`fsW1` the redo pass leaves a failure and `main` exits 1. -/
theorem main_exit_codes_witness : mW1.exitCode = 1 ∧ mW1.successReported = false := by
  have h := (main_exit_codes fsW1 0 0 argsW1).1 rfl mW1 rfl
  exact ⟨(h.2 rW1 rfl).2 (by decide), rfl⟩

/-- Witness for the redo-pass partition theorem on `fsW4`: the dud list
is exactly `["d"]` and the dud `d` is neither retried nor failed. -/
theorem rerun_partition_witness :
    rW4.duds = ["d"] ∧ "d" ∉ rW4.redos ∧ "d" ∉ rW4.failed := by
  have h := rerun_partition fsW4 0 ["d","g"] 8 none rW4 rfl
  refine ⟨?_, h.2.2 "d" ?_⟩
  · rw [h.2.1]; rfl
  · rw [h.2.1]; decide

/-- Witness for the literal-path stat theorem: on `fsW2` the redo pass
raises `FileNotFoundError` on the literal template path. -/
theorem redo_size_check_witness :
    rerun_spades_genes fsW2 0 ["g"] 8 none =
      Except.error (PyErr.fileNotFoundError literalContigsTemplate) :=
  (redo_size_check_literal_path fsW2 0 8 none "g" [21, 33] rfl (by decide) rfl).1 rfl

/-- Witness for the k-mer-dropping theorem: on `fsW7` the attempted
k-mers 55, 21, 33 yield the restart command `--restart-from k33 -k
21,33`, dropping the largest value 55. -/
theorem redo_drops_largest_witness :
    rW7.commands =
      ["spades.py --restart-from k33 -k 21,33 --threads 1 --cov-cutoff 8 -o g/g_spades"] := by
  obtain ⟨small, second, maxv, heq, -, -, -, -, -, hcmd⟩ :=
    redo_drops_largest_kmer fsW7 0 8 none "g" [55, 21, 33] rfl (by decide) rW7 rfl
  have h3 : small ++ [second, maxv] = ([21, 33, 55] : List Int) := by
    rw [← heq]
    decide
  have hlen : small.length = 1 := by
    have hl := congrArg List.length h3
    simp at hl
    omega
  rcases small with - | ⟨a, small'⟩
  · simp at hlen
  · rcases small' with - | ⟨b, small''⟩
    · simp only [List.cons_append, List.nil_append, List.cons.injEq, and_true] at h3
      obtain ⟨rfl, rfl, rfl⟩ := h3
      rw [hcmd]
      rfl
    · simp at hlen

/-- Witness for the warning-only theorem: with exit code 1 on `fsW9`
the warning message is printed and the failure list is identical to the
exit-code-0 run. -/
theorem exitcode_warning_only_witness :
    assemblyErrorMsg ∈ (spades_initial fsW9 1 "genes.txt" 8 none true none).stderr ∧
    (spades_initial fsW9 1 "genes.txt" 8 none true none).failed =
      (spades_initial fsW9 0 "genes.txt" 8 none true none).failed := by
  have h := exitcode_warning_only fsW9 1 0 "genes.txt" 8 none true none []
  exact ⟨h.2.2.2.2.1 (by decide), h.1⟩

/-- Witness for the `-j` flag theorem: with `cpu` unset the command has
no `-j`, and with `cpu = 4` it contains `-j 4`. -/
theorem cpu_flag_omitted_witness :
    (¬ ("-j".data <:+: (make_spades_cmd "genes.txt" 8 none true none).data)) ∧
    (("-j " ++ toString (4 : Int)).data <:+:
      (make_spades_cmd "genes.txt" 8 (some 4) true none).data) := by
  constructor
  · exact (cpu_flag_omitted_iff "genes.txt" 8 none none true (by decide) (by decide)
      (fun s hs => nomatch hs)).1 (Or.inl rfl)
  · exact (cpu_flag_omitted_iff "genes.txt" 8 none (some 4) true (by decide) (by decide)
      (fun s hs => nomatch hs)).2 4 rfl (by decide)

/-- Witness for the CLI-arguments theorem: on `fsC10`, despite
`--cpu 6` and `--cov_cutoff 99`, the redo parallel command has no `-j`
and the generated restart command uses `--cov-cutoff 8`. -/
theorem main_redo_ignores_cli_witness :
    rC10.redoCmd = "parallel --eta :::: redo_spades_commands.txt > spades_redo.log" ∧
    ∀ c ∈ rC10.commands, "--cov-cutoff 8 -o ".data <:+: c.data := by
  have h := main_redo_ignores_cli_args fsC10 0 0 argsC10
  exact ⟨h.1 mC10 rC10 rfl rfl, h.2 rfl mC10 rC10 rfl rfl⟩
